import Mathlib

/-!
Shallow embedding of the agent-tool lambda functions of the
public-sector-bedrock-agents repository, together with proofs about them.

Python strings are modelled as lists of characters (`Str`), Python `date`
values handled only through `weekday()` and day-stepping are modelled by
their proleptic-Gregorian ordinal (a natural number, as returned by
`date.toordinal`; ordinal 1 is 0001-01-01, a Monday, and
`weekday = (ordinal + 6) % 7` with Monday = 0), and calendar dates handled
through their year/month/day fields are modelled by an explicit
year/month/day structure.  Fallible Python code (raised exceptions) is
modelled with `Except String`.
-/

namespace BedrockAgents

/-- Python strings, modelled as lists of characters. -/
abbrev Str := List Char

/-! ## DateTimeAgent: `date_time_utils.py`, class `BusinessDateTimeUtils`

A `date` is its ordinal `n : Nat`; `weekday n = (n + 6) % 7` matches
Python's `date.weekday()` (Monday = 0 .. Sunday = 6), and adding
`timedelta(days = 1)` is `n + 1`. -/

/-- Python `date.weekday()` on the ordinal model: Monday = 0 .. Sunday = 6. -/
def weekday (n : Nat) : Nat := (n + 6) % 7

/-- Embedding of `BusinessDateTimeUtils.is_business_day`: the weekday is
between 0 and 4 (Monday to Friday). -/
def is_business_day (n : Nat) : Bool :=
  decide (0 ≤ weekday n) && decide (weekday n ≤ 4)

/-- Embedding of `BusinessDateTimeUtils.calculate_business_days`: starting
from `start_date`, while `current_date < end_date` count the business days
and step one day forward. -/
def calculate_business_days (start_date end_date : Nat) : Nat :=
  if start_date < end_date then
    (if is_business_day start_date then 1 else 0) +
      calculate_business_days (start_date + 1) end_date
  else 0
termination_by end_date - start_date

/-- Embedding of the loop body of
`BusinessDateTimeUtils.get_next_business_day`.  The Python loop condition is
`next_day.weekday() > 4 or self.is_holiday(next_day)`: when the weekday is
greater than 4 the `or` short-circuits and the day is advanced; otherwise
Python evaluates `self.is_holiday`, an attribute that does not exist on the
class (the method is commented out in the source), raising `AttributeError`. -/
def next_business_day_loop (n : Nat) : Except String Nat :=
  if weekday n > 4 then
    next_business_day_loop (n + 1)
  else
    Except.error
      "AttributeError: 'BusinessDateTimeUtils' object has no attribute 'is_holiday'"
termination_by (if weekday n ≥ 5 then 7 - weekday n else 0)
decreasing_by
  simp only [weekday] at *
  split_ifs <;> omega

/-- Embedding of `BusinessDateTimeUtils.get_next_business_day`: start at the
day after `date_obj` and run the while loop. -/
def get_next_business_day (date_obj : Nat) : Except String Nat :=
  next_business_day_loop (date_obj + 1)

/-! ## AWSArtifactAgent: `artifact_utils.py`, `get_total_report_pages`

The boto3 paginator yields the reports of the catalog split into pages, so
`sum(len(page['reports']) for page in paginator)` is the total number of
reports in the catalog; the network client is modelled by the catalog list
itself. -/

/-- A report of the AWS Artifact catalog (the fields used by the code). -/
structure Report where
  id : Str
  name : Str
  version : Int
  description : Str
deriving Repr, DecidableEq

/-- Embedding of `ArtifactUtils.get_total_report_pages`: reject
`page_size > 15` with `ValueError`; then `ceil(total_reports / page_size)`,
which raises `ZeroDivisionError` when `page_size = 0` (the guard only checks
the upper bound). -/
def get_total_report_pages (catalog : List Report) (page_size : Nat) :
    Except String Nat :=
  if page_size > 15 then
    Except.error "ValueError: page_size cannot exceed 15"
  else
    let total_reports := catalog.length
    if page_size = 0 then
      Except.error "ZeroDivisionError: division by zero"
    else
      Except.ok ((total_reports + page_size - 1) / page_size)

/-! ## DateTimeAgent: calendar dates for the fiscal-year functions

`get_fiscal_year` and `get_fiscal_year_range` use the year/month/day fields
of Python `date` values, so here a date is an explicit year/month/day triple
with the proleptic Gregorian calendar rules, ordered lexicographically
exactly as Python orders `date` values. -/

/-- A Python `date` seen through its year/month/day fields. -/
structure PDate where
  year : Int
  month : Nat
  day : Nat
deriving Repr, DecidableEq

/-- Gregorian leap-year rule, as implemented by Python's `datetime`. -/
def isLeapYear (y : Int) : Bool :=
  (y % 4 == 0 && y % 100 != 0) || y % 400 == 0

/-- Number of days of month `m` of year `y` in the Gregorian calendar. -/
def daysInMonth (y : Int) (m : Nat) : Nat :=
  match m with
  | 1 => 31
  | 2 => if isLeapYear y then 29 else 28
  | 3 => 31
  | 4 => 30
  | 5 => 31
  | 6 => 30
  | 7 => 31
  | 8 => 31
  | 9 => 30
  | 10 => 31
  | 11 => 30
  | 12 => 31
  | _ => 0

/-- The triples that denote actual calendar dates (what Python's `date`
constructor accepts). -/
abbrev ValidDate (d : PDate) : Prop :=
  1 ≤ d.month ∧ d.month ≤ 12 ∧ 1 ≤ d.day ∧ d.day ≤ daysInMonth d.year d.month

/-- Python's ordering on `date` values: lexicographic on
(year, month, day). -/
def dateLe (a b : PDate) : Bool :=
  decide (a.year < b.year) ||
    (a.year == b.year &&
      (decide (a.month < b.month) ||
        (a.month == b.month && decide (a.day ≤ b.day))))

/-- Subtracting `timedelta(days=1)` from a date: the previous calendar
day. -/
def predDate (d : PDate) : PDate :=
  if 1 < d.day then ⟨d.year, d.month, d.day - 1⟩
  else if 1 < d.month then ⟨d.year, d.month - 1, daysInMonth d.year (d.month - 1)⟩
  else ⟨d.year - 1, 12, 31⟩

/-- Embedding of `BusinessDateTimeUtils.get_fiscal_year`: the calendar year,
decremented when the date's month is before the fiscal-year start month. -/
def get_fiscal_year (date_obj : PDate) (fiscal_year_start_month : Nat) : Int :=
  if date_obj.month < fiscal_year_start_month then date_obj.year - 1
  else date_obj.year

/-- Embedding of `BusinessDateTimeUtils.get_fiscal_year_range`: the first day
of the start month in the fiscal year, and the day before the first day of
the start month one year later. -/
def get_fiscal_year_range (date_obj : PDate) (fiscal_year_start_month : Nat) :
    PDate × PDate :=
  let fiscal_year := get_fiscal_year date_obj fiscal_year_start_month
  (⟨fiscal_year, fiscal_year_start_month, 1⟩,
   predDate ⟨fiscal_year + 1, fiscal_year_start_month, 1⟩)

/-! ## Theorems for the DateTimeAgent claims -/

/-- The business-day test coincides with `weekday ≤ 4` (the lower bound
`0 ≤ weekday` in the source is vacuous on naturals). -/
theorem is_business_day_eq (n : Nat) :
    is_business_day n = decide (weekday n ≤ 4) := by
  simp [is_business_day]

theorem calculate_business_days_shift (k s : Nat) :
    calculate_business_days s (s + k) =
      ((List.range' s k).filter (fun d => decide (weekday d ≤ 4))).length := by
  induction k generalizing s with
  | zero =>
      rw [calculate_business_days]
      simp
  | succ k ih =>
      rw [calculate_business_days]
      have hs : s < s + (k + 1) := by omega
      have harith : s + 1 + k = s + (k + 1) := by omega
      simp only [hs, if_pos, List.range'_succ, List.filter_cons, is_business_day_eq]
      rw [← harith, ih (s + 1)]
      by_cases hb : weekday s ≤ 4 <;> simp [hb] <;> omega

/-- C2: `calculate_business_days(start, end)` counts exactly the days `d`
with `start ≤ d < end` whose weekday is Monday through Friday (the end date
is excluded), and is `0` whenever `start ≥ end`.  The set of such days is
`List.range' start (end - start)`. -/
theorem calculate_business_days_spec (start_date end_date : Nat) :
    calculate_business_days start_date end_date =
      ((List.range' start_date (end_date - start_date)).filter
        (fun d => decide (weekday d ≤ 4))).length ∧
    (end_date ≤ start_date → calculate_business_days start_date end_date = 0) := by
  constructor
  · have h := calculate_business_days_shift (end_date - start_date) start_date
    by_cases hle : start_date ≤ end_date
    · rw [show start_date + (end_date - start_date) = end_date by omega] at h
      exact h
    · rw [calculate_business_days]
      have : ¬ start_date < end_date := by omega
      have h0 : end_date - start_date = 0 := by omega
      simp [this, h0]
  · intro h
    rw [calculate_business_days]
    have : ¬ start_date < end_date := by omega
    simp [this]

/-- Witness for `calculate_business_days_spec` at concrete inputs. -/
theorem calculate_business_days_spec_witness :
    calculate_business_days 10 17 =
      ((List.range' 10 7).filter (fun d => decide (weekday d ≤ 4))).length ∧
    calculate_business_days 17 10 = 0 :=
  ⟨(calculate_business_days_spec 10 17).1,
   (calculate_business_days_spec 17 10).2 (by decide)⟩

theorem next_business_day_loop_raises (n : Nat) :
    next_business_day_loop n =
      Except.error
        "AttributeError: 'BusinessDateTimeUtils' object has no attribute 'is_holiday'" := by
  by_cases h : weekday n > 4
  · rw [next_business_day_loop]
    simp only [h, if_pos]
    by_cases h1 : weekday (n + 1) > 4
    · rw [next_business_day_loop]
      simp only [h1, if_pos]
      rw [next_business_day_loop]
      have h2 : ¬ weekday (n + 1 + 1) > 4 := by
        simp only [weekday] at *
        omega
      simp [h2]
    · rw [next_business_day_loop]
      simp [h1]
  · rw [next_business_day_loop]
    simp [h]

/-- C8: for every input date, `get_next_business_day` raises
`AttributeError`: once the candidate day's weekday is Monday through Friday
(which happens within two steps, since at most two consecutive days are
weekend days) the loop condition evaluates `self.is_holiday`, which is not
defined on the class, so the function never returns a date. -/
theorem get_next_business_day_raises (date_obj : Nat) :
    get_next_business_day date_obj =
      Except.error
        "AttributeError: 'BusinessDateTimeUtils' object has no attribute 'is_holiday'" :=
  next_business_day_loop_raises (date_obj + 1)

theorem dateLe_iff (a b : PDate) :
    dateLe a b = true ↔
      (a.year < b.year ∨
        (a.year = b.year ∧
          (a.month < b.month ∨ (a.month = b.month ∧ a.day ≤ b.day)))) := by
  simp [dateLe]

theorem daysInMonth_twelve (y : Int) : daysInMonth y 12 = 31 := rfl

theorem predDate_first (y : Int) (m : Nat) (hm : 1 < m) :
    predDate ⟨y, m, 1⟩ = ⟨y, m - 1, daysInMonth y (m - 1)⟩ := by
  simp [predDate, hm]

theorem predDate_first_jan (y : Int) :
    predDate ⟨y, 1, 1⟩ = ⟨y - 1, 12, 31⟩ := by
  simp [predDate]

/-- C3: for every valid date `d` and start month `1 ≤ m ≤ 12`,
`get_fiscal_year_range d m` is the pair of the first day of month `m` in
year `get_fiscal_year d m` and the day before the first day of month `m` one
year later, and `d` lies inside this range. -/
theorem get_fiscal_year_range_spec (d : PDate) (m : Nat)
    (hd : ValidDate d) (hm1 : 1 ≤ m) (hm12 : m ≤ 12) :
    (get_fiscal_year_range d m).1 = ⟨get_fiscal_year d m, m, 1⟩ ∧
    (get_fiscal_year_range d m).2 =
      predDate ⟨get_fiscal_year d m + 1, m, 1⟩ ∧
    dateLe (get_fiscal_year_range d m).1 d = true ∧
    dateLe d (get_fiscal_year_range d m).2 = true := by
  obtain ⟨hm1d, hm12d, hd1, hd2⟩ := hd
  have e1 : (get_fiscal_year_range d m).1 = ⟨get_fiscal_year d m, m, 1⟩ := rfl
  have e2 : (get_fiscal_year_range d m).2 =
      predDate ⟨get_fiscal_year d m + 1, m, 1⟩ := rfl
  refine ⟨e1, e2, ?_, ?_⟩
  · rw [e1, dateLe_iff]
    simp only [get_fiscal_year]
    split_ifs with h <;> (try dsimp only) <;> omega
  · rw [e2]
    simp only [get_fiscal_year]
    split_ifs with h
    · have hm2 : 1 < m := by omega
      have hy : d.year - 1 + 1 = d.year := by ring
      rw [hy, predDate_first _ _ hm2, dateLe_iff]
      dsimp only
      by_cases hmm : d.month = m - 1
      · have hdd : d.day ≤ daysInMonth d.year (m - 1) := by
          rw [← hmm]; exact hd2
        omega
      · omega
    · by_cases hm2 : 1 < m
      · rw [predDate_first _ _ hm2, dateLe_iff]
        dsimp only
        omega
      · have hm1' : m = 1 := by omega
        subst hm1'
        rw [predDate_first_jan, dateLe_iff]
        dsimp only
        by_cases hmm : d.month = 12
        · have hdd : d.day ≤ 31 := by
            rw [hmm, daysInMonth_twelve] at hd2; exact hd2
          omega
        · omega

/-- Witness for `get_fiscal_year_range_spec` at a concrete date. -/
theorem get_fiscal_year_range_spec_witness :
    (get_fiscal_year_range ⟨2024, 3, 15⟩ 10).1 =
      ⟨get_fiscal_year ⟨2024, 3, 15⟩ 10, 10, 1⟩ ∧
    (get_fiscal_year_range ⟨2024, 3, 15⟩ 10).2 =
      predDate ⟨get_fiscal_year ⟨2024, 3, 15⟩ 10 + 1, 10, 1⟩ ∧
    dateLe (get_fiscal_year_range ⟨2024, 3, 15⟩ 10).1 ⟨2024, 3, 15⟩ = true ∧
    dateLe (⟨2024, 3, 15⟩ : PDate) (get_fiscal_year_range ⟨2024, 3, 15⟩ 10).2 = true :=
  get_fiscal_year_range_spec ⟨2024, 3, 15⟩ 10 (by decide) (by decide) (by decide)

/-! ## AWSArtifactAgent: `artifact_utils.py`, `list_reports`

The boto3 paginator with `PageSize = page_size` yields the catalog split
into consecutive pages of at most `page_size` reports; it is modelled by
`paginate`, which chunks the catalog list.  The `for`-loop of
`list_reports` that walks the page iterator counting pages is modelled by
`select_page`. -/

/-- Chunking worker with explicit fuel (the catalog length is enough fuel
whenever the page size is positive). -/
def paginateGo (fuel page_size : Nat) (l : List Report) : List (List Report) :=
  match fuel with
  | 0 => []
  | fuel + 1 =>
      if l.isEmpty then []
      else l.take page_size :: paginateGo fuel page_size (l.drop page_size)

/-- The boto3 paginator: the catalog split into consecutive pages of at most
`page_size` reports. -/
def paginate (page_size : Nat) (l : List Report) : List (List Report) :=
  paginateGo l.length page_size l

/-- The page-scanning `for`-loop of `list_reports`: pages are counted from
1; the loop body fires when the counter reaches `page_number`, otherwise the
counter is incremented; if the iterator is exhausted nothing is collected. -/
def select_page (pages : List (List Report)) (page_number : Nat) : List Report :=
  match pages with
  | [] => []
  | p :: rest =>
      if page_number = 1 then p else select_page rest (page_number - 1)

/-- A report as reshaped by `list_reports` (id, name, version, truncated
description). -/
structure ListedReport where
  id : Str
  name : Str
  version : Int
  description : Str
deriving Repr, DecidableEq

/-- Embedding of the description-truncation expression of `list_reports`:
`''.join([description[:100], '...' if len(description) > 100 else ''])`. -/
def truncate_description (description : Str) : Str :=
  description.take 100 ++
    (if description.length > 100 then ['.', '.', '.'] else [])

/-- The per-report reshaping performed inside `list_reports`. -/
def reshape_report (r : Report) : ListedReport :=
  ⟨r.id, r.name, r.version, truncate_description r.description⟩

/-- Embedding of `ArtifactUtils.list_reports`: reject `page_size > 10` with
`ValueError`; for `page_number` absent or 1 take the first page of the
paginator; otherwise scan the page iterator for page `page_number`,
collecting nothing when it is exhausted first. -/
def list_reports (catalog : List Report) (page_size : Nat)
    (page_number : Option Nat) : Except String (List ListedReport) :=
  if page_size > 10 then
    Except.error "ValueError: page_size cannot exceed 10"
  else
    let pages := paginate page_size catalog
    match page_number with
    | none => Except.ok ((pages.headD []).map reshape_report)
    | some pn =>
        if pn = 1 then Except.ok ((pages.headD []).map reshape_report)
        else Except.ok ((select_page pages pn).map reshape_report)

/-! ## Theorems for the AWSArtifactAgent page-count claim -/

/-- C10: `get_total_report_pages` validates only the upper bound of
`page_size`.  For `page_size = 0` the guard passes and the division raises
`ZeroDivisionError`; for `1 ≤ page_size ≤ 15` it returns
`ceil(total_reports / page_size)` (characterised by
`total ≤ n * page_size < total + page_size`, and equal to the rational
ceiling); for `page_size > 15` it raises `ValueError`. -/
theorem get_total_report_pages_spec (catalog : List Report) (page_size : Nat) :
    (page_size = 0 →
      get_total_report_pages catalog page_size =
        Except.error "ZeroDivisionError: division by zero") ∧
    (1 ≤ page_size → page_size ≤ 15 →
      ∃ n, get_total_report_pages catalog page_size = Except.ok n ∧
        catalog.length ≤ n * page_size ∧
        n * page_size < catalog.length + page_size ∧
        (n : ℤ) = ⌈(catalog.length : ℚ) / (page_size : ℚ)⌉) ∧
    (15 < page_size →
      get_total_report_pages catalog page_size =
        Except.error "ValueError: page_size cannot exceed 15") := by
  refine ⟨?_, ?_, ?_⟩
  · intro h0
    simp [get_total_report_pages, h0]
  · intro h1 h15
    refine ⟨(catalog.length + page_size - 1) / page_size, ?_, ?_⟩
    · simp only [get_total_report_pages]
      have hn15 : ¬ page_size > 15 := by omega
      have hn0 : ¬ page_size = 0 := by omega
      simp [hn15, hn0]
    · set a := catalog.length + page_size - 1 with ha
      have hdm := Nat.div_add_mod a page_size
      have hmlt : a % page_size < page_size := Nat.mod_lt _ (by omega)
      have hle : catalog.length ≤ a / page_size * page_size := by
        rw [mul_comm]
        omega
      have hlt : a / page_size * page_size < catalog.length + page_size := by
        rw [mul_comm]
        omega
      refine ⟨hle, hlt, ?_⟩
      have hps : (0 : ℚ) < (page_size : ℚ) := by
        exact_mod_cast Nat.pos_of_ne_zero (by omega)
      symm
      rw [Int.ceil_eq_iff, Int.cast_natCast]
      constructor
      · rw [lt_div_iff hps]
        have hltQ : ((a / page_size : ℕ) : ℚ) * (page_size : ℚ) <
            ((catalog.length : ℚ) + (page_size : ℚ)) := by exact_mod_cast hlt
        nlinarith [hltQ]
      · rw [div_le_iff hps]
        exact_mod_cast hle
  · intro h15
    simp [get_total_report_pages, h15]

theorem paginateGo_getD (fuel page_size : Nat) (hps : 1 ≤ page_size) :
    ∀ (l : List Report) (i : Nat), l.length ≤ fuel →
      (paginateGo fuel page_size l).getD i [] =
        (l.drop (i * page_size)).take page_size := by
  induction fuel with
  | zero =>
      intro l i hf
      have hl : l = [] := List.eq_nil_of_length_eq_zero (by omega)
      subst hl
      simp [paginateGo]
  | succ fuel ih =>
      intro l i hf
      by_cases hl : l = []
      · subst hl
        simp [paginateGo]
      · have hne : l.isEmpty = false := by simp [hl]
        simp only [paginateGo, hne, Bool.false_eq_true, if_false]
        cases i with
        | zero => simp
        | succ i =>
            have hlen : (l.drop page_size).length ≤ fuel := by
              have hpos : 1 ≤ l.length := List.length_pos.mpr hl
              simp only [List.length_drop]
              omega
            rw [List.getD_cons_succ, ih (l.drop page_size) i hlen, List.drop_drop]
            congr 2
            ring

/-- Witness for `get_total_report_pages_spec` at concrete inputs. -/
theorem get_total_report_pages_spec_witness :
    get_total_report_pages [] 0 =
      Except.error "ZeroDivisionError: division by zero" ∧
    (∃ n, get_total_report_pages [] 2 = Except.ok n ∧
      (List.length ([] : List Report)) ≤ n * 2 ∧
      n * 2 < (List.length ([] : List Report)) + 2 ∧
      (n : ℤ) = ⌈((List.length ([] : List Report)) : ℚ) / (2 : ℚ)⌉) ∧
    get_total_report_pages [] 16 =
      Except.error "ValueError: page_size cannot exceed 15" :=
  ⟨(get_total_report_pages_spec [] 0).1 rfl,
   (get_total_report_pages_spec [] 2).2.1 (by decide) (by decide),
   (get_total_report_pages_spec [] 16).2.2 (by decide)⟩

theorem select_page_eq_getD (pages : List (List Report)) :
    ∀ pn : Nat, 1 ≤ pn → select_page pages pn = pages.getD (pn - 1) [] := by
  induction pages with
  | nil => intro pn h; simp [select_page]
  | cons p rest ih =>
      intro pn h
      by_cases h1 : pn = 1
      · subst h1; simp [select_page]
      · have h2 : 2 ≤ pn := by omega
        rw [select_page, if_neg h1, ih (pn - 1) (by omega),
          show pn - 1 = (pn - 2) + 1 from by omega, List.getD_cons_succ]
        congr 1

theorem paginate_getD (page_size : Nat) (hps : 1 ≤ page_size)
    (catalog : List Report) (i : Nat) :
    (paginate page_size catalog).getD i [] =
      (catalog.drop (i * page_size)).take page_size :=
  paginateGo_getD catalog.length page_size hps catalog i le_rfl

theorem paginate_headD (page_size : Nat) (catalog : List Report) :
    (paginate page_size catalog).headD [] =
      (paginate page_size catalog).getD 0 [] := by
  cases h : paginate page_size catalog <;> simp

theorem list_reports_page (catalog : List Report) (page_size : Nat)
    (hps1 : 1 ≤ page_size) (hps10 : page_size ≤ 10) :
    ∀ pn : Nat, 1 ≤ pn →
      list_reports catalog page_size (some pn) =
        Except.ok
          (((catalog.drop ((pn - 1) * page_size)).take page_size).map
            reshape_report) := by
  intro pn hpn
  have h10 : ¬ (page_size > 10) := by omega
  by_cases h1 : pn = 1
  · subst h1
    simp only [list_reports, if_neg h10]
    rw [paginate_headD, paginate_getD page_size hps1 catalog 0]
    simp
  · simp only [list_reports, if_neg h10, if_neg h1]
    rw [select_page_eq_getD _ pn hpn, paginate_getD page_size hps1 catalog (pn - 1)]

/-- C4: for `1 ≤ page_size ≤ 10` and `page_number ≥ 1`, `list_reports`
returns exactly the reports at positions `(page_number - 1) * page_size`
through `page_number * page_size - 1` of the catalog, each reshaped to id,
name, version and truncated description; a page number past the last page
yields the empty list; `page_size > 10` raises `ValueError`; and an absent
page number yields the first page. -/
theorem list_reports_spec (catalog : List Report)
    (page_size page_number page_beyond bad_page_size : Nat)
    (hps1 : 1 ≤ page_size) (hps10 : page_size ≤ 10)
    (hpn : 1 ≤ page_number) (hpb : 1 ≤ page_beyond)
    (hbeyond : catalog.length ≤ (page_beyond - 1) * page_size)
    (hbad : 10 < bad_page_size) :
    list_reports catalog page_size (some page_number) =
      Except.ok
        (((catalog.drop ((page_number - 1) * page_size)).take page_size).map
          reshape_report) ∧
    list_reports catalog page_size (some page_beyond) = Except.ok [] ∧
    list_reports catalog bad_page_size (some page_number) =
      Except.error "ValueError: page_size cannot exceed 10" ∧
    list_reports catalog page_size none =
      Except.ok ((catalog.take page_size).map reshape_report) := by
  refine ⟨list_reports_page catalog page_size hps1 hps10 page_number hpn, ?_, ?_, ?_⟩
  · rw [list_reports_page catalog page_size hps1 hps10 page_beyond hpb,
      List.drop_eq_nil_of_le hbeyond]
    simp
  · simp [list_reports, hbad]
  · have h10 : ¬ (page_size > 10) := by omega
    simp only [list_reports, if_neg h10]
    rw [paginate_headD, paginate_getD page_size hps1 catalog 0]
    simp

/-- Witness for `list_reports_spec` at a concrete catalog. -/
theorem list_reports_spec_witness :
    list_reports [⟨['r'], ['n'], 1, ['d']⟩] 2 (some 1) =
      Except.ok
        ((((List.drop ((1 - 1) * 2) [⟨['r'], ['n'], 1, ['d']⟩]).take 2)).map
          reshape_report) ∧
    list_reports [⟨['r'], ['n'], 1, ['d']⟩] 2 (some 2) = Except.ok [] ∧
    list_reports [⟨['r'], ['n'], 1, ['d']⟩] 11 (some 1) =
      Except.error "ValueError: page_size cannot exceed 10" ∧
    list_reports [⟨['r'], ['n'], 1, ['d']⟩] 2 none =
      Except.ok (([(⟨['r'], ['n'], 1, ['d']⟩ : Report)].take 2).map reshape_report) :=
  list_reports_spec [⟨['r'], ['n'], 1, ['d']⟩] 2 1 2 11
    (by decide) (by decide) (by decide) (by decide) (by decide) (by decide)

/-- C5: the reshaped description is the original description when it has at
most 100 characters, and the first 100 characters followed by `"..."` when
it is longer. -/
theorem reshape_report_description_spec (r : Report) :
    (100 < r.description.length →
      (reshape_report r).description =
        r.description.take 100 ++ ['.', '.', '.']) ∧
    (r.description.length ≤ 100 →
      (reshape_report r).description = r.description) := by
  constructor
  · intro h
    simp [reshape_report, truncate_description, h]
  · intro h
    have hn : ¬ (r.description.length > 100) := by omega
    simp [reshape_report, truncate_description, hn, List.take_of_length_le h]

/-- Witness for `reshape_report_description_spec`: a long and a short
description. -/
theorem reshape_report_description_spec_witness :
    ((reshape_report ⟨[], [], 1, List.replicate 101 'a'⟩).description =
      (List.replicate 101 'a').take 100 ++ ['.', '.', '.']) ∧
    ((reshape_report ⟨[], [], 1, ['d']⟩).description = ['d']) :=
  ⟨(reshape_report_description_spec ⟨[], [], 1, List.replicate 101 'a'⟩).1
      (by simp),
   (reshape_report_description_spec ⟨[], [], 1, ['d']⟩).2 (by simp)⟩

/-! ## WeatherForecastAgent: `weather.py`

Latitude and longitude are Python floats used only in boundary comparisons
against the exactly representable constants 90 and 180, so they are
modelled as rationals.  The forecast periods extracted by `_get_periods`
are opaque JSON objects, modelled by a type parameter; the surrounding
response shape (`json_data['properties']['periods']`) is assumed
well-formed, as the claim does.  `num_periods` is a Python `int` (possibly
negative), so `Option Int`; non-`int` arguments are outside the typed
embedding. -/

/-- The state stored by a successfully constructed `WeatherForecast`. -/
structure WeatherForecast where
  latitude : ℚ
  longitude : ℚ
deriving Repr, DecidableEq

/-- Embedding of `WeatherForecast.__init__`: raise unless
`-90 <= latitude <= 90` and `-180 <= longitude <= 180`, else store both. -/
def mk_weather_forecast (latitude longitude : ℚ) :
    Except String WeatherForecast :=
  if ¬ (-90 ≤ latitude ∧ latitude ≤ 90) ∨ ¬ (-180 ≤ longitude ∧ longitude ≤ 180) then
    Except.error "Invalid latitude or longitude value"
  else
    Except.ok ⟨latitude, longitude⟩

/-- Embedding of `WeatherForecast._get_periods` on a well-formed response:
`num_periods` absent returns every period, a negative value raises, and a
non-negative value keeps the first `num_periods` periods. -/
def get_periods {α : Type} (periods : List α) (num_periods : Option Int) :
    Except String (List α) :=
  match num_periods with
  | none => Except.ok periods
  | some n =>
      if n < 0 then Except.error "num_periods must be a non-negative integer"
      else Except.ok (periods.take n.toNat)

/-- C7: constructing `WeatherForecast` fails exactly when the latitude is
outside `[-90, 90]` or the longitude is outside `[-180, 180]`, and for
in-range pairs it stores exactly the given coordinates. -/
theorem mk_weather_forecast_spec (latitude longitude : ℚ) :
    ((∃ e, mk_weather_forecast latitude longitude = Except.error e) ↔
      (latitude < -90 ∨ 90 < latitude ∨ longitude < -180 ∨ 180 < longitude)) ∧
    ((-90 ≤ latitude ∧ latitude ≤ 90 ∧ -180 ≤ longitude ∧ longitude ≤ 180) →
      mk_weather_forecast latitude longitude =
        Except.ok ⟨latitude, longitude⟩) := by
  constructor
  · rw [mk_weather_forecast]
    by_cases h : ¬ (-90 ≤ latitude ∧ latitude ≤ 90) ∨
        ¬ (-180 ≤ longitude ∧ longitude ≤ 180)
    · rw [if_pos h]
      constructor
      · intro _
        rcases h with h | h <;> (rw [not_and_or] at h; push_neg at h) <;> tauto
      · intro _
        exact ⟨_, rfl⟩
    · rw [if_neg h]
      push_neg at h
      obtain ⟨⟨h1, h2⟩, h3, h4⟩ := h
      constructor
      · intro ⟨e, he⟩
        exact absurd he (by simp)
      · intro hc
        rcases hc with hc | hc | hc | hc <;> linarith
  · intro ⟨h1, h2, h3, h4⟩
    rw [mk_weather_forecast, if_neg (by push_neg; exact ⟨⟨h1, h2⟩, h3, h4⟩)]

/-- Witness for `mk_weather_forecast_spec` at concrete in-range
coordinates. -/
theorem mk_weather_forecast_spec_witness :
    mk_weather_forecast 47 (-122) = Except.ok ⟨47, -122⟩ :=
  (mk_weather_forecast_spec 47 (-122)).2 (by norm_num)

/-- C6: `_get_periods` keeps the first `min(num_periods, len(periods))`
periods in their original order (the kept list is a prefix of the input),
returns the whole list when `num_periods` is absent, and raises on a
negative `num_periods`. -/
theorem get_periods_spec {α : Type} (periods : List α) (n : Nat) (m : Int)
    (hm : m < 0) :
    get_periods periods none = Except.ok periods ∧
    get_periods periods (some (n : Int)) = Except.ok (periods.take n) ∧
    (periods.take n).length = min n periods.length ∧
    (∃ rest, periods = periods.take n ++ rest) ∧
    get_periods periods (some m) =
      Except.error "num_periods must be a non-negative integer" := by
  refine ⟨rfl, ?_, List.length_take n periods, ⟨periods.drop n, ?_⟩, ?_⟩
  · rw [get_periods, if_neg (by exact_mod_cast Int.not_lt.mpr (Int.natCast_nonneg n))]
    rw [Int.toNat_natCast]
  · rw [List.take_append_drop]
  · rw [get_periods, if_pos hm]

/-- Witness for `get_periods_spec` at a concrete period list. -/
theorem get_periods_spec_witness :
    get_periods [10, 20, 30] none = Except.ok [10, 20, 30] ∧
    get_periods [10, 20, 30] (some ((2 : Nat) : Int)) =
      Except.ok ([10, 20, 30].take 2) ∧
    ([10, 20, 30].take 2).length = min 2 [10, 20, 30].length ∧
    (∃ rest, [10, 20, 30] = [10, 20, 30].take 2 ++ rest) ∧
    get_periods [10, 20, 30] (some (-1)) =
      Except.error "num_periods must be a non-negative integer" :=
  get_periods_spec [10, 20, 30] 2 (-1) (by decide)

/-! ## DateTimeAgent: `lambda_handler.py`, `/pdl` endpoint

`check_policy_deadline` compares the value returned by
`DateTimeUtils.get_date_time()` — a dictionary — against a
`datetime.datetime` with `>=`.  To capture Python's dynamic typing at this
comparison, the relevant runtime values are a small universe `PyVal`:
strings, `None`, dictionaries, and `datetime` objects (a `datetime` is
modelled by its position on the time line, which is what its comparisons
observe).  Python defines `>=` between two `datetime`s and on nothing else
in this universe; every other combination raises `TypeError`. -/

/-- The Python runtime values flowing through `check_policy_deadline`. -/
inductive PyVal where
  | pstr : Str → PyVal
  | pnone : PyVal
  | pdict : List (Str × PyVal) → PyVal
  | pdatetime : Nat → PyVal
deriving Repr

/-- The Python type name of a value, as it appears in error messages. -/
def pyTypeName : PyVal → String
  | .pstr _ => "'str'"
  | .pnone => "'NoneType'"
  | .pdict _ => "'dict'"
  | .pdatetime _ => "'datetime.datetime'"

/-- Python's `>=` on this universe: defined between two `datetime`s
(chronological order), a `TypeError` for every other combination. -/
def pyGe (a b : PyVal) : Except String Bool :=
  match a, b with
  | .pdatetime t1, .pdatetime t2 => Except.ok (decide (t2 ≤ t1))
  | a, b =>
      Except.error
        ("TypeError: '>=' not supported between instances of " ++
          pyTypeName a ++ " and " ++ pyTypeName b)

/-- The ambient UTC instant read by `datetime.now`, together with the local
timezone name: the inputs of `DateTimeUtils.get_date_time`. -/
structure Clock where
  year : Nat
  month : Nat
  day : Nat
  hour : Nat
  minute : Nat
  second : Nat
  weekdayIndex : Nat
  localTzName : Str

/-- Left-pad a digit string with zeros to a given width (`strftime`'s
zero-padded fields). -/
def padZero (width : Nat) (s : Str) : Str :=
  List.replicate (width - s.length) '0' ++ s

/-- Decimal digits of a natural number. -/
def natToStr (n : Nat) : Str := Nat.toDigits 10 n

/-- The weekday names indexed by Python's `date.weekday()`. -/
def dayNames : List Str :=
  ["Monday", "Tuesday", "Wednesday", "Thursday", "Friday", "Saturday",
    "Sunday"].map String.toList

/-- Embedding of `DateTimeUtils.get_date_time`: a dictionary with the
formatted date (`%m/%d/%Y`), time (`%H:%M:%S`), weekday name (`None` if the
index were out of range, mirroring the `except IndexError` branch) and
timezone name. -/
def get_date_time (clock : Clock) : PyVal :=
  .pdict
    [ ("date".toList,
        .pstr (padZero 2 (natToStr clock.month) ++ ['/'] ++
          padZero 2 (natToStr clock.day) ++ ['/'] ++
          padZero 4 (natToStr clock.year)))
    , ("time".toList,
        .pstr (padZero 2 (natToStr clock.hour) ++ [':'] ++
          padZero 2 (natToStr clock.minute) ++ [':'] ++
          padZero 2 (natToStr clock.second)))
    , ("day".toList,
        match dayNames[clock.weekdayIndex]? with
        | some d => .pstr d
        | none => .pnone)
    , ("timezone".toList, .pstr clock.localTzName) ]

/-- Embedding of the `/pdl` handler `check_policy_deadline`:
`current_datetime` is the dictionary returned by `get_date_time`,
`parsed_expiry` the `datetime` parsed from the well-formed `expiry_date`
string, and the handler compares them with `>=` before choosing one of its
two messages. -/
def check_policy_deadline (policy_name expiry_date : Str)
    (parsed_expiry : Nat) (clock : Clock) : Except String (Nat × Str) := do
  let current_datetime := get_date_time clock
  let is_past ← pyGe current_datetime (.pdatetime parsed_expiry)
  if is_past then
    pure (200, "The ".toList ++ policy_name ++
      " policy has expired on ".toList ++ expiry_date)
  else
    pure (200, "The ".toList ++ policy_name ++
      " policy is still valid and will expire on ".toList ++ expiry_date)

/-- C9: for every policy name, every well-formed expiry date and every
current instant, `check_policy_deadline` raises `TypeError` — the `>=`
comparison pits the dictionary returned by `get_date_time` against a
`datetime` — and never returns either of its two messages. -/
theorem check_policy_deadline_raises (policy_name expiry_date : Str)
    (parsed_expiry : Nat) (clock : Clock) :
    check_policy_deadline policy_name expiry_date parsed_expiry clock =
      Except.error
        "TypeError: '>=' not supported between instances of 'dict' and 'datetime.datetime'" :=
  rfl

/-! ## AWSArtifactAgent: `artifact_utils.py`, `search_reports`

The search lowercases the query, splits it on whitespace into a set of
keywords, and counts `re.findall` matches of the alternation
`\bk1\b|...|\bkn\b` in the lowercased name and description of every report.
For keywords made of word characters a whole-word match is exactly a
maximal word-character run of the text equal to a keyword; such matches are
disjoint and independent of the alternation order, so the `findall` count
is the number of word tokens of the text that belong to the keyword set.
The embedding covers the ASCII fragment of Python's `\w` and `str.lower`. -/

/-- Python's `\w` (ASCII fragment): letters, digits and underscore. -/
def isWordChar (c : Char) : Bool := c.isAlphanum || c = '_'

/-- Worker for `runsOf` with explicit fuel (every step consumes at least
one character, so the length of the string is enough fuel). -/
def runsOfGo (fuel : Nat) (p : Char → Bool) : Str → List Str :=
  match fuel with
  | 0 => fun _ => []
  | fuel + 1 => fun s =>
      match s with
      | [] => []
      | c :: cs =>
          if p c then (c :: cs.takeWhile p) :: runsOfGo fuel p (cs.dropWhile p)
          else runsOfGo fuel p cs

/-- The maximal runs of characters satisfying `p` (other characters
separate tokens and are discarded). -/
def runsOf (p : Char → Bool) (s : Str) : List Str :=
  runsOfGo s.length p s

/-- Python `str.lower` (ASCII fragment). -/
def lowerStr (s : Str) : Str := s.map Char.toLower

/-- The word tokens of a text: its maximal word-character runs. -/
def wordTokens (s : Str) : List Str := runsOf isWordChar s

/-- Python `str.split()`: the maximal non-whitespace runs. -/
def split_words (s : Str) : List Str := runsOf (fun c => !c.isWhitespace) s

/-- The keyword set built by `search_reports`:
`set(search_keywords.lower().split())` (duplicates removed; only
membership in the set is ever used). -/
def search_words_of (search_keywords : Str) : List Str :=
  (split_words (lowerStr search_keywords)).dedup

/-- Number of whole-word occurrences of any of the keywords in the
lowercased text: `len(re.findall(word_pattern, text.lower()))`. -/
def countMatches (search_words : List Str) (text : Str) : Nat :=
  ((wordTokens (lowerStr text)).filter
    (fun t => search_words.contains t)).length

/-- A `search_reports` result entry. -/
structure MatchedReport where
  id : Str
  name : Str
  description : Str
  version : Int
  match_count : Nat
deriving Repr, DecidableEq

/-- The entry built for a matching report. -/
def match_entry (search_words : List Str) (r : Report) : MatchedReport :=
  ⟨r.id, r.name, r.description, r.version,
    countMatches search_words r.name + countMatches search_words r.description⟩

/-- The `matching_reports` accumulation loop of `search_reports`: keep the
reports with a positive total match count, reshaped with their count. -/
def matching_reports (search_words : List Str) (reports : List Report) :
    List MatchedReport :=
  reports.filterMap (fun r =>
    let total_matches :=
      countMatches search_words r.name + countMatches search_words r.description
    if total_matches > 0 then some (match_entry search_words r) else none)

/-- Does the optional `max_results` exceed the bound? (the guard of the
`ValueError`). -/
def exceeds_max (max_results : Option Nat) (bound : Nat) : Bool :=
  match max_results with
  | none => false
  | some m => decide (bound < m)

/-- Embedding of `ArtifactUtils.search_reports`: raise `ValueError` when
`max_results` exceeds 10; otherwise build the matching entries, sort them
by non-increasing `match_count` (Python's stable `sort` with
`reverse=True`), and truncate to `max_results` when it is given. -/
def search_reports (reports : List Report) (search_keywords : Str)
    (max_results : Option Nat) : Except String (List MatchedReport) :=
  if exceeds_max max_results 10 then
    Except.error "ValueError: max_results cannot exceed 10"
  else
    let search_words := search_words_of search_keywords
    let sorted :=
      (matching_reports search_words reports).mergeSort
        (fun a b => decide (b.match_count ≤ a.match_count))
    match max_results with
    | none => Except.ok sorted
    | some m => Except.ok (sorted.take m)

theorem matching_reports_mem (search_words : List Str) (reports : List Report)
    (e : MatchedReport) :
    e ∈ matching_reports search_words reports ↔
      ∃ r ∈ reports,
        0 < countMatches search_words r.name +
            countMatches search_words r.description ∧
        e = match_entry search_words r := by
  rw [matching_reports, List.mem_filterMap]
  constructor
  · rintro ⟨r, hr, hfr⟩
    dsimp only at hfr
    by_cases h : countMatches search_words r.name +
        countMatches search_words r.description > 0
    · rw [if_pos h] at hfr
      exact ⟨r, hr, h, (Option.some_inj.mp hfr).symm⟩
    · rw [if_neg h] at hfr
      exact absurd hfr (by simp)
  · rintro ⟨r, hr, h, rfl⟩
    refine ⟨r, hr, ?_⟩
    dsimp only
    rw [if_pos h]

/-- C1: with a query containing at least one word, all of whose keywords are
word characters, and `max_results = m ≤ 10`: `search_reports` keeps exactly
the reports one of whose lowercased name or description contains a
whole-word occurrence of a lowercased keyword, each with `match_count` the
total number of such occurrences in name plus description; entries come in
non-increasing `match_count` order; with `max_results` the list is its own
first `m` entries, hence at most `m` of them; and `max_results > 10`
raises `ValueError`. -/
theorem search_reports_spec (reports : List Report) (search_keywords : Str)
    (m bad : Nat)
    (hwords : search_words_of search_keywords ≠ [])
    (hwordchars : ∀ w ∈ search_words_of search_keywords,
      ∀ c ∈ w, isWordChar c = true)
    (hm : m ≤ 10) (hbad : 10 < bad) :
    ∃ L l,
      search_reports reports search_keywords none = Except.ok L ∧
      search_reports reports search_keywords (some m) = Except.ok l ∧
      l = L.take m ∧
      l.length ≤ m ∧
      (∀ e, e ∈ L ↔
        ∃ r ∈ reports,
          0 < countMatches (search_words_of search_keywords) r.name +
              countMatches (search_words_of search_keywords) r.description ∧
          e = match_entry (search_words_of search_keywords) r) ∧
      List.Pairwise (fun a b => b.match_count ≤ a.match_count) L ∧
      List.Pairwise (fun a b => b.match_count ≤ a.match_count) l ∧
      search_reports reports search_keywords (some bad) =
        Except.error "ValueError: max_results cannot exceed 10" := by
  have htrans : ∀ a b c : MatchedReport,
      decide (b.match_count ≤ a.match_count) = true →
      decide (c.match_count ≤ b.match_count) = true →
      decide (c.match_count ≤ a.match_count) = true := by
    intro a b c h1 h2
    simp only [decide_eq_true_eq] at *
    omega
  have htotal : ∀ a b : MatchedReport,
      (decide (b.match_count ≤ a.match_count) ||
        decide (a.match_count ≤ b.match_count)) = true := by
    intro a b
    simp only [Bool.or_eq_true, decide_eq_true_eq]
    omega
  refine ⟨(matching_reports (search_words_of search_keywords) reports).mergeSort
      (fun a b => decide (b.match_count ≤ a.match_count)), _, rfl, ?_, rfl,
      ?_, ?_, ?_, ?_, ?_⟩
  · have hex : exceeds_max (some m) 10 = false := by
      simp only [exceeds_max, decide_eq_false_iff_not]
      omega
    simp only [search_reports, hex, Bool.false_eq_true, if_false]
  · simp only [List.length_take]
    omega
  · intro e
    rw [List.mem_mergeSort, matching_reports_mem]
  · exact (List.sorted_mergeSort htrans htotal _).imp
      (fun h => by simpa using h)
  · exact List.Pairwise.sublist (List.take_sublist m _)
      ((List.sorted_mergeSort htrans htotal _).imp (fun h => by simpa using h))
  · have hex : exceeds_max (some bad) 10 = true := by
      simp only [exceeds_max, decide_eq_true_eq]
      omega
    simp only [search_reports, hex, if_true]

/-- Witness for `search_reports_spec`: a one-report catalog searched with
the keyword `FedRAMP`, `max_results = 2`, and the rejected value 11. -/
theorem search_reports_spec_witness :
    ∃ L l,
      search_reports
          [⟨"id1".toList, "AWS FedRAMP Report".toList, 2,
            "Covers fedramp scope".toList⟩]
          "FedRAMP".toList none = Except.ok L ∧
      search_reports
          [⟨"id1".toList, "AWS FedRAMP Report".toList, 2,
            "Covers fedramp scope".toList⟩]
          "FedRAMP".toList (some 2) = Except.ok l ∧
      l = L.take 2 ∧
      l.length ≤ 2 ∧
      (∀ e, e ∈ L ↔
        ∃ r ∈ [(⟨"id1".toList, "AWS FedRAMP Report".toList, 2,
            "Covers fedramp scope".toList⟩ : Report)],
          0 < countMatches (search_words_of "FedRAMP".toList) r.name +
              countMatches (search_words_of "FedRAMP".toList) r.description ∧
          e = match_entry (search_words_of "FedRAMP".toList) r) ∧
      List.Pairwise (fun a b => b.match_count ≤ a.match_count) L ∧
      List.Pairwise (fun a b => b.match_count ≤ a.match_count) l ∧
      search_reports
          [⟨"id1".toList, "AWS FedRAMP Report".toList, 2,
            "Covers fedramp scope".toList⟩]
          "FedRAMP".toList (some 11) =
        Except.error "ValueError: max_results cannot exceed 10" :=
  search_reports_spec
    [⟨"id1".toList, "AWS FedRAMP Report".toList, 2,
      "Covers fedramp scope".toList⟩]
    "FedRAMP".toList 2 11 (by decide) (by decide) (by decide) (by decide)

end BedrockAgents
